import Mathlib

/-!
Verification of the two localization-sync scripts of the repository:
`scripts/extract_missing_translations.py` and `scripts/import_translations.py`.

The scripts operate on a parsed JSON document (Python `json.load` output).
We embed JSON values as an inductive type whose objects keep field order,
matching Python dicts (insertion-ordered, unique keys).  Python operations
that can raise (`.get` / `.items()` on a non-dict, subscripting, item
assignment) are modelled in the `Except PyErr` monad.  File I/O is modelled
by an association list from path to parsed document; a path absent from the
list is a file that does not exist (contents are taken to be already-parsed
JSON, since no claim concerns JSON parse failures, which the scripts let
propagate).
-/

set_option maxHeartbeats 1000000

namespace Nolon

/-- JSON values as decoded by `json.load` (objects keep field order, as Python
dicts preserve insertion order). -/
inductive Json where
  | null
  | bool (b : Bool)
  | num (n : Int)
  | str (s : String)
  | arr (elems : List Json)
  | obj (fields : List (String × Json))

/-- Lookup of a key in an (insertion-ordered) object field list,
Python `d[k]` / `k in d` for dicts. -/
def getKey : List (String × Json) → String → Option Json
  | [], _ => none
  | (k, v) :: rest, key => if k = key then some v else getKey rest key

/-- Python `d[k] = v` on a dict: replace in place if the key is present
(keeping its position), append at the end otherwise. -/
def setKey : List (String × Json) → String → Json → List (String × Json)
  | [], key, v => [(key, v)]
  | (k, w) :: rest, key, v =>
      if k = key then (key, v) :: rest else (k, w) :: setKey rest key v

/-- Python truthiness of a JSON value (`if zh_hans:`). -/
def Json.truthy : Json → Bool
  | .null => false
  | .bool b => b
  | .num n => n != 0
  | .str s => s != ""
  | .arr elems => !elems.isEmpty
  | .obj fields => !fields.isEmpty

/-- Python `==` between a decoded JSON value and a string literal:
true exactly for an equal `str`. -/
def eqStr : Json → String → Bool
  | .str t, s => t = s
  | _, _ => false

/-- Exceptions the scripts can raise on malformed documents. -/
inductive PyErr where
  | attributeError
  | typeError
  | keyError
deriving DecidableEq

/-- Python `v.get(key, default)`: only dicts have `.get`; any other decoded
JSON value raises `AttributeError`. -/
def pyGet (v : Json) (key : String) (default : Json) : Except PyErr Json :=
  match v with
  | .obj fields => .ok ((getKey fields key).getD default)
  | _ => .error .attributeError

/-- Python `v.items()`: only dicts have `.items()`. -/
def pyItems (v : Json) : Except PyErr (List (String × Json)) :=
  match v with
  | .obj fields => .ok fields
  | _ => .error .attributeError

/-- Whether a string occurs as a contiguous substring of another
(Python `key in s` for strings). -/
def strContainsSub (s key : String) : Bool :=
  (List.range (s.length + 1)).any fun i => (s.drop i).startsWith key

/-- Python `key in container` for a string key: key membership for dicts,
element membership for lists, substring test for strings, `TypeError`
otherwise. -/
def pyContains (container : Json) (key : String) : Except PyErr Bool :=
  match container with
  | .obj fields => .ok (getKey fields key).isSome
  | .arr elems => .ok (elems.any fun x => eqStr x key)
  | .str s => .ok (strContainsSub s key)
  | _ => .error .typeError

/-- Python `container[key]` for a string key: dict lookup (`KeyError` when
absent); `TypeError` on any other decoded JSON value. -/
def pySubscript (container : Json) (key : String) : Except PyErr Json :=
  match container with
  | .obj fields =>
      match getKey fields key with
      | some v => .ok v
      | none => .error .keyError
  | _ => .error .typeError

/-- Python `container[key] = v` for a string key: dict item assignment;
`TypeError` on any other decoded JSON value. -/
def pySetItem (container : Json) (key : String) (v : Json) : Except PyErr Json :=
  match container with
  | .obj fields => .ok (Json.obj (setKey fields key v))
  | _ => .error .typeError

/-- Console output of the scripts, one constructor per `print` statement. -/
inductive Msg where
  | errorNotFound (path : String)
  | warningKeyNotFound (key : String)
  | foundCount (n : Nat)
  | exported (path : String)
  | updatedCount (n : Nat) (path : String)
deriving DecidableEq

/-- `os.path.join(SCRIPT_DIR, "../nolon/Localizable.xcstrings")`. -/
def XCSTRINGS_PATH : String := "scripts/../nolon/Localizable.xcstrings"

/-- `os.path.join(SCRIPT_DIR, "missing_translations.json")`. -/
def OUTPUT_PATH : String := "scripts/missing_translations.json"

/-- `os.path.join(SCRIPT_DIR, "translated_items.json")`. -/
def TRANSLATIONS_PATH : String := "scripts/translated_items.json"

/-- The file system: a map from path to the parsed JSON document stored there. -/
abbrev FS := List (String × Json)

/-! ## Extractor (`extract_missing_translations.py`) -/

/-- The per-entry missing-translation check of the extractor:
```
localizations = value.get("localizations", {})
zh_hans = localizations.get("zh-Hans")
is_missing = True
if zh_hans:
    string_unit = zh_hans.get("stringUnit", {})
    state = string_unit.get("state")
    if state == "translated":
        is_missing = False
```
-/
def isMissing (value : Json) : Except PyErr Bool := do
  let localizations ← pyGet value "localizations" (Json.obj [])
  let zhHans ← pyGet localizations "zh-Hans" Json.null
  if zhHans.truthy then
    let stringUnit ← pyGet zhHans "stringUnit" (Json.obj [])
    let state ← pyGet stringUnit "state" Json.null
    if eqStr state "translated" then
      return false
    else
      return true
  else
    return true

/-- Loop body of the extractor: when the entry is missing, record
`{source: key, comment: value.get("comment", "")}` under `key`. -/
def processEntry (missingItems : List (String × Json)) (key : String)
    (value : Json) : Except PyErr (List (String × Json)) := do
  let m ← isMissing value
  if m then
    let comment ← pyGet value "comment" (Json.str "")
    return setKey missingItems key
      (Json.obj [("source", Json.str key), ("comment", comment)])
  else
    return missingItems

/-- `for key, value in strings.items(): ...` accumulating `missing_items`. -/
def extractLoop (missingItems : List (String × Json)) :
    List (String × Json) → Except PyErr (List (String × Json))
  | [] => .ok missingItems
  | (key, value) :: rest => do
      let acc ← processEntry missingItems key value
      extractLoop acc rest

/-- The in-memory transform of the extractor: from the parsed catalog to the
`missing_items` report mapping. -/
def extractMissing (data : Json) : Except PyErr (List (String × Json)) := do
  let strings ← pyGet data "strings" (Json.obj [])
  let items ← pyItems strings
  extractLoop [] items

/-- `main()` of `extract_missing_translations.py` over the modelled file
system: existence check, read, transform, report write, console output. -/
def extractorMain (fs : FS) : Except PyErr (FS × List Msg) :=
  match getKey fs XCSTRINGS_PATH with
  | none => .ok (fs, [Msg.errorNotFound XCSTRINGS_PATH])
  | some data => do
      let report ← extractMissing data
      return (setKey fs OUTPUT_PATH (Json.obj report),
        [Msg.foundCount report.length, Msg.exported OUTPUT_PATH])

/-! ## Importer (`import_translations.py`) -/

/-- The record the importer assigns:
`{"stringUnit": {"state": "translated", "value": translation}}`. -/
def newRecord (translation : Json) : Json :=
  Json.obj [("stringUnit",
    Json.obj [("state", Json.str "translated"), ("value", translation)])]

/-- Loop body of the importer:
```
if key in strings:
    if "localizations" not in strings[key]:
        strings[key]["localizations"] = {}
    strings[key]["localizations"]["zh-Hans"] = {...}
    updated_count += 1
else:
    print warning
```
In-place mutation of the nested dicts is modelled by writing the updated
sub-object back along the access path (decoded JSON is a tree, so this is
the same document).  Returns the updated `strings` object and whether the
pair was counted. -/
def importStep (strings : Json) (key : String) (translation : Json) :
    Except PyErr (Json × Bool) := do
  let mem ← pyContains strings key
  if mem then
    let entry0 ← pySubscript strings key
    let hasLoc ← pyContains entry0 "localizations"
    let strings1 ←
      if hasLoc then pure strings
      else do
        let entry1 ← pySetItem entry0 "localizations" (Json.obj [])
        pySetItem strings key entry1
    let entry2 ← pySubscript strings1 key
    let locs ← pySubscript entry2 "localizations"
    let locs2 ← pySetItem locs "zh-Hans" (newRecord translation)
    let entry3 ← pySetItem entry2 "localizations" locs2
    let strings2 ← pySetItem strings1 key entry3
    return (strings2, true)
  else
    return (strings, false)

/-- `for key, translation in translations.items(): ...`; returns the final
`strings` object, the value of `updated_count`, and the warnings printed. -/
def importLoop (strings : Json) :
    List (String × Json) → Except PyErr (Json × Nat × List Msg)
  | [] => .ok (strings, 0, [])
  | (key, translation) :: rest => do
      let (strings1, counted) ← importStep strings key translation
      let (stringsF, n, warns) ← importLoop strings1 rest
      if counted then
        return (stringsF, n + 1, warns)
      else
        return (stringsF, n, Msg.warningKeyNotFound key :: warns)

/-- `strings = data.get("strings", {})` aliases `data["strings"]` when the key
is present, so mutations of `strings` are visible in `data` exactly in that
case; when the key is absent the loop mutates a fresh dict and `data` is
written back unchanged. -/
def writeBack (data strings2 : Json) : Json :=
  match data with
  | .obj dfields =>
      if (getKey dfields "strings").isSome then
        Json.obj (setKey dfields "strings" strings2)
      else data
  | _ => data

/-- The in-memory transform of the importer: parsed catalog and parsed
translations to the document that is dumped back, the final
`updated_count`, and the warnings printed. -/
def importMerge (data translations : Json) :
    Except PyErr (Json × Nat × List Msg) := do
  let strings ← pyGet data "strings" (Json.obj [])
  let items ← pyItems translations
  let (strings2, count, warns) ← importLoop strings items
  return (writeBack data strings2, count, warns)

/-- `main()` of `import_translations.py` over the modelled file system:
existence checks, reads, merge, full overwrite of the catalog path, console
output. -/
def importerMain (fs : FS) : Except PyErr (FS × List Msg) :=
  match getKey fs XCSTRINGS_PATH with
  | none => .ok (fs, [Msg.errorNotFound XCSTRINGS_PATH])
  | some data =>
      match getKey fs TRANSLATIONS_PATH with
      | none => .ok (fs, [Msg.errorNotFound TRANSLATIONS_PATH])
      | some translations => do
          let (data2, count, warns) ← importMerge data translations
          return (setKey fs XCSTRINGS_PATH data2,
            warns ++ [Msg.updatedCount count XCSTRINGS_PATH])

/-! ## Spec-side definitions -/

/-- Following the spec's words (refinement side, to be compared with the
code's `isMissing`): "a target-locale localization record exists whose
`stringUnit.state` equals exactly the string `\x22translated\x22`". -/
def specHasTranslatedZhHans (value : Json) : Bool :=
  match value with
  | .obj fields =>
      match getKey fields "localizations" with
      | some (.obj locs) =>
          match getKey locs "zh-Hans" with
          | some (.obj zh) =>
              match getKey zh "stringUnit" with
              | some (.obj su) =>
                  match getKey su "state" with
                  | some st => eqStr st "translated"
                  | none => false
              | _ => false
          | _ => false
      | _ => false
  | _ => false

/-- The shapes of a string entry on which the extractor's per-entry check
runs to completion: every value it calls `.get` on is a dict.  (The entry
itself; its `localizations` value when present; a truthy `zh-Hans` value;
and that value's `stringUnit` field when present.) -/
def entryWellShaped (value : Json) : Bool :=
  match value with
  | .obj fields =>
      match getKey fields "localizations" with
      | none => true
      | some (.obj locs) =>
          match (getKey locs "zh-Hans").getD Json.null with
          | z =>
            if z.truthy then
              match z with
              | .obj zh =>
                  match getKey zh "stringUnit" with
                  | none => true
                  | some (.obj _) => true
                  | some _ => false
              | _ => false
            else true
      | some _ => false
  | _ => false

/-! ## Basic lemmas about object field lists -/

@[simp]
theorem except_bind_ok {α β ε : Type} (a : α) (f : α → Except ε β) :
    (Except.ok a : Except ε α) >>= f = f a := rfl

@[simp]
theorem except_bind_error {α β ε : Type} (e : ε) (f : α → Except ε β) :
    (Except.error e : Except ε α) >>= f = .error e := rfl

@[simp]
theorem except_pure_eq {α ε : Type} (a : α) : (pure a : Except ε α) = .ok a := rfl

theorem getKey_setKey_self (l : List (String × Json)) (k : String) (v : Json) :
    getKey (setKey l k v) k = some v := by
  induction l with
  | nil => simp [setKey, getKey]
  | cons p rest ih =>
    obtain ⟨a, b⟩ := p
    by_cases ha : a = k <;> simp [setKey, getKey, ha, ih]

theorem getKey_setKey_ne (l : List (String × Json)) (k kx : String) (v : Json)
    (h : kx ≠ k) : getKey (setKey l k v) kx = getKey l kx := by
  induction l with
  | nil => simp [setKey, getKey, Ne.symm h]
  | cons p rest ih =>
    obtain ⟨a, b⟩ := p
    by_cases ha : a = k <;> simp [setKey, getKey, ha, Ne.symm h, ih]

theorem setKey_self (l : List (String × Json)) (k : String) (v : Json)
    (h : getKey l k = some v) : setKey l k v = l := by
  induction l with
  | nil => simp [getKey] at h
  | cons p rest ih =>
    obtain ⟨a, b⟩ := p
    by_cases ha : a = k
    · subst ha
      simp [getKey] at h
      simp [setKey, h]
    · simp [getKey, ha] at h
      simp [setKey, ha, ih h]

theorem setKey_setKey (l : List (String × Json)) (k : String) (v w : Json) :
    setKey (setKey l k v) k w = setKey l k w := by
  induction l with
  | nil => simp [setKey]
  | cons p rest ih =>
    obtain ⟨a, b⟩ := p
    by_cases ha : a = k <;> simp [setKey, ha, ih]

theorem keys_setKey_of_isSome (l : List (String × Json)) (k : String) (v : Json)
    (h : (getKey l k).isSome) :
    (setKey l k v).map Prod.fst = l.map Prod.fst := by
  induction l with
  | nil => simp [getKey] at h
  | cons p rest ih =>
    obtain ⟨a, b⟩ := p
    by_cases ha : a = k
    · subst ha; simp [setKey]
    · simp [getKey, ha] at h
      simp [setKey, ha, ih h]

theorem getKey_eq_none_iff (l : List (String × Json)) (k : String) :
    getKey l k = none ↔ k ∉ l.map Prod.fst := by
  induction l with
  | nil => simp [getKey]
  | cons p rest ih =>
    obtain ⟨a, b⟩ := p
    by_cases ha : a = k
    · simp [getKey, ha]
    · simp [getKey, ha, ih]
      exact fun _ hh => ha hh.symm

theorem getKey_isSome_iff (l : List (String × Json)) (k : String) :
    (getKey l k).isSome = true ↔ k ∈ l.map Prod.fst := by
  induction l with
  | nil => simp [getKey]
  | cons p rest ih =>
    obtain ⟨a, b⟩ := p
    by_cases ha : a = k
    · simp [getKey, ha]
    · simp [getKey, ha, ih]
      exact fun hh => absurd hh.symm ha

theorem getKey_mem (l : List (String × Json)) (k : String) (v : Json)
    (h : getKey l k = some v) : (k, v) ∈ l := by
  induction l with
  | nil => simp [getKey] at h
  | cons p rest ih =>
    obtain ⟨a, b⟩ := p
    by_cases ha : a = k
    · subst ha
      simp [getKey] at h
      simp [h]
    · simp [getKey, ha] at h
      exact List.mem_cons_of_mem _ (ih h)

theorem getKey_of_mem_nodup (l : List (String × Json))
    (hnd : (l.map Prod.fst).Nodup) (k : String) (v : Json)
    (h : (k, v) ∈ l) : getKey l k = some v := by
  induction l with
  | nil => simp at h
  | cons p rest ih =>
    obtain ⟨a, b⟩ := p
    simp only [List.map_cons, List.nodup_cons] at hnd
    rcases List.mem_cons.mp h with heq | hmem
    · obtain ⟨rfl, rfl⟩ := Prod.mk.injEq .. ▸ heq
      · simp [getKey]
    · have hk : k ∈ rest.map Prod.fst := List.mem_map_of_mem Prod.fst hmem
      have ha : a ≠ k := fun hh => hnd.1 (hh ▸ hk)
      simp [getKey, ha, ih hnd.2 hmem]

/-! ## Characterization of the extractor's per-entry check -/

/-- `isMissing` succeeds exactly on well-shaped entries, and there computes
the negation of the spec-side translated condition; on every other shape it
raises `AttributeError`. -/
theorem isMissing_eq (v : Json) :
    isMissing v =
      if entryWellShaped v then Except.ok (!(specHasTranslatedZhHans v))
      else Except.error PyErr.attributeError := by
  cases v with
  | null => rfl
  | bool b => rfl
  | num n => rfl
  | str s => rfl
  | arr elems => rfl
  | obj fields =>
    simp only [isMissing, entryWellShaped, specHasTranslatedZhHans, pyGet]
    rcases hl : getKey fields "localizations" with _ | lv
    · simp [Json.truthy, getKey]
    · cases lv with
      | null => simp
      | bool b => simp
      | num n => simp
      | str s => simp
      | arr es => simp
      | obj locs =>
        simp only [Option.getD, except_bind_ok]
        rcases hz : getKey locs "zh-Hans" with _ | zv
        · simp [pyGet, Json.truthy]
        · cases zv with
          | null => simp [pyGet, Json.truthy]
          | bool b => cases b <;> simp [pyGet, Json.truthy]
          | num n =>
            by_cases hn : n = 0 <;> simp [pyGet, Json.truthy, hn]
          | str s =>
            by_cases hs : s = "" <;> simp [pyGet, Json.truthy, hs]
          | arr es => cases es <;> simp [pyGet, Json.truthy]
          | obj zh =>
            cases zh with
            | nil => simp [pyGet, Json.truthy, getKey]
            | cons zp zrest =>
              simp only [Json.truthy, List.isEmpty_cons, Bool.not_false,
                if_true, pyGet, except_bind_ok]
              rcases hsu : getKey (zp :: zrest) "stringUnit" with _ | su
              · simp [pyGet, eqStr, getKey]
              · cases su with
                | null => simp
                | bool b => simp
                | num n => simp
                | str s => simp
                | arr es => simp
                | obj sufs =>
                  simp only [Option.getD, except_bind_ok]
                  rcases hst : getKey sufs "state" with _ | st
                  · simp [eqStr]
                  · by_cases he : eqStr st "translated" = true <;> simp [he]

/-- Successful processing of one entry: the check succeeded, and the report
either gained the entry under its key (missing) or is unchanged. -/
theorem processEntry_char (acc : List (String × Json)) (key : String)
    (value : Json) (acc1 : List (String × Json))
    (h : processEntry acc key value = .ok acc1) :
    ∃ b, isMissing value = .ok b ∧
      ((b = false ∧ acc1 = acc) ∨
       (b = true ∧ ∃ item, acc1 = setKey acc key item)) := by
  simp only [processEntry] at h
  rcases hm : isMissing value with e | b
  · rw [hm] at h; simp at h
  · rw [hm] at h
    simp only [except_bind_ok] at h
    cases b with
    | false =>
      simp at h
      exact ⟨false, rfl, Or.inl ⟨rfl, h.symm⟩⟩
    | true =>
      simp only [if_true] at h
      rcases hc : pyGet value "comment" (Json.str "") with e | c
      · rw [hc] at h; simp at h
      · rw [hc] at h
        simp at h
        exact ⟨true, rfl, Or.inr ⟨rfl, _, h.symm⟩⟩

/-- Keys not mentioned in the iterated entries keep their report binding. -/
theorem extractLoop_getKey_of_not_mem (items : List (String × Json))
    (acc report : List (String × Json)) (k : String)
    (hk : k ∉ items.map Prod.fst)
    (h : extractLoop acc items = .ok report) :
    getKey report k = getKey acc k := by
  induction items generalizing acc with
  | nil =>
    simp only [extractLoop] at h
    cases h
    rfl
  | cons p rest ih =>
    obtain ⟨key, value⟩ := p
    simp only [List.map_cons, List.mem_cons] at hk
    push_neg at hk
    simp only [extractLoop] at h
    rcases hpe : processEntry acc key value with e | acc1
    · rw [hpe] at h; simp at h
    · rw [hpe] at h
      simp only [except_bind_ok] at h
      rw [ih acc1 hk.2 h]
      rcases processEntry_char acc key value acc1 hpe with ⟨b, _, hshape⟩
      rcases hshape with ⟨_, rfl⟩ | ⟨_, item, rfl⟩
      · rfl
      · exact getKey_setKey_ne acc key k item hk.1

/-- Per-entry characterization of a successful extractor loop run: every
iterated entry was classified, and its key is in the final report exactly
when it was classified missing. -/
theorem extractLoop_mem_char (items : List (String × Json))
    (acc report : List (String × Json))
    (hnd : (items.map Prod.fst).Nodup)
    (hacc : ∀ k ∈ items.map Prod.fst, getKey acc k = none)
    (h : extractLoop acc items = .ok report) :
    ∀ k v, (k, v) ∈ items →
      ∃ b, isMissing v = .ok b ∧ (getKey report k).isSome = b := by
  induction items generalizing acc with
  | nil => intro k v hkv; simp at hkv
  | cons p rest ih =>
    obtain ⟨key, value⟩ := p
    simp only [List.map_cons, List.nodup_cons] at hnd
    simp only [extractLoop] at h
    rcases hpe : processEntry acc key value with e | acc1
    · rw [hpe] at h; simp at h
    · rw [hpe] at h
      simp only [except_bind_ok] at h
      rcases processEntry_char acc key value acc1 hpe with ⟨b0, hm0, hshape⟩
      have hacc1 : ∀ k ∈ rest.map Prod.fst, getKey acc1 k = none := by
        intro k hk
        have hkne : k ≠ key := fun hh => hnd.1 (hh ▸ hk)
        have := hacc k (by simp [hk])
        rcases hshape with ⟨_, rfl⟩ | ⟨_, item, rfl⟩
        · exact this
        · rw [getKey_setKey_ne acc key k item hkne]; exact this
      intro k v hkv
      rcases List.mem_cons.mp hkv with heq | hmem
      · obtain ⟨rfl, rfl⟩ := Prod.mk.injEq .. ▸ heq
        refine ⟨b0, hm0, ?_⟩
        have hrep : getKey report k = getKey acc1 k :=
          extractLoop_getKey_of_not_mem rest acc1 report k hnd.1 h
        rcases hshape with ⟨hb, rfl⟩ | ⟨hb, item, rfl⟩
        · rw [hrep, hacc k (by simp), hb]; rfl
        · rw [hrep, getKey_setKey_self, hb]; rfl
      · exact ih acc1 hnd.2 hacc1 h k v hmem

/-! ## Claim C1 -/

/-- C1: for every entry in the catalog's strings mapping, the extractor
classifies it as missing exactly when it is NOT the case that a zh-Hans
localization record with `stringUnit.state` equal to exactly `"translated"`
exists (absence of any of the nested fields, or any other state value,
counts as missing), and exactly the missing entries' keys appear in the
report. -/
theorem extract_missing_iff_not_translated
    (dfields sfields report : List (String × Json))
    (hstr : getKey dfields "strings" = some (Json.obj sfields))
    (hnd : (sfields.map Prod.fst).Nodup)
    (hrun : extractMissing (Json.obj dfields) = .ok report) :
    ∀ k v, (k, v) ∈ sfields →
      isMissing v = .ok (!(specHasTranslatedZhHans v)) ∧
      ((getKey report k).isSome = true ↔ specHasTranslatedZhHans v = false) := by
  simp only [extractMissing, pyGet, hstr, Option.getD, except_bind_ok,
    pyItems] at hrun
  intro k v hkv
  rcases extractLoop_mem_char sfields [] report hnd (fun k _ => rfl) hrun k v hkv
    with ⟨b, hm, hsome⟩
  have hb : b = !(specHasTranslatedZhHans v) := by
    have heq := isMissing_eq v
    rw [hm] at heq
    by_cases hw : entryWellShaped v = true
    · simp [hw] at heq; exact heq
    · simp [hw] at heq
  subst hb
  refine ⟨hm, ?_⟩
  rw [hsome]
  cases hsp : specHasTranslatedZhHans v <;> simp

theorem extract_missing_iff_not_translated_witness :
    isMissing (Json.obj [("comment", Json.str "greeting")]) =
      .ok (!(specHasTranslatedZhHans (Json.obj [("comment", Json.str "greeting")]))) ∧
    ((getKey [("Hello", Json.obj [("source", Json.str "Hello"),
        ("comment", Json.str "greeting")])] "Hello").isSome = true ↔
      specHasTranslatedZhHans (Json.obj [("comment", Json.str "greeting")]) = false) :=
  extract_missing_iff_not_translated
    [("strings", Json.obj [("Hello", Json.obj [("comment", Json.str "greeting")])])]
    [("Hello", Json.obj [("comment", Json.str "greeting")])]
    [("Hello", Json.obj [("source", Json.str "Hello"), ("comment", Json.str "greeting")])]
    rfl (by simp) rfl "Hello" (Json.obj [("comment", Json.str "greeting")])
    (List.mem_singleton.mpr rfl)

/-! ## Claim C3 -/

/-- C3 counterexample: the claim says the classification completes without
raising for every shape of an entry, but on the catalog
`{"strings": {"k": "hello"}}` (entry value a plain string) the extractor
raises `AttributeError` (`"hello".get` does not exist). -/
theorem extract_classification_raises_on_string_entry :
    extractMissing (Json.obj [("strings", Json.obj [("k", Json.str "hello")])]) =
      .error PyErr.attributeError := rfl

/-- C3 amended: on every entry whose values along the access path are JSON
objects where `.get` is called on them (the entry itself; its
`localizations` value when present; a truthy `zh-Hans` value and, when
present, that value's `stringUnit` field), the classification completes
without raising, and missing sub-fields default to counting the entry as
missing (result is the negation of the spec-side translated condition). -/
theorem isMissing_total_on_well_shaped (v : Json)
    (h : entryWellShaped v = true) :
    isMissing v = .ok (!(specHasTranslatedZhHans v)) := by
  rw [isMissing_eq]; simp [h]

theorem isMissing_total_on_well_shaped_witness :
    entryWellShaped (Json.obj [("localizations", Json.obj [("zh-Hans",
      Json.obj [("stringUnit", Json.obj [("state", Json.str "needs_review")])])])]) = true ∧
    isMissing (Json.obj [("localizations", Json.obj [("zh-Hans",
      Json.obj [("stringUnit", Json.obj [("state", Json.str "needs_review")])])])]) =
      .ok (!(specHasTranslatedZhHans (Json.obj [("localizations", Json.obj [("zh-Hans",
        Json.obj [("stringUnit", Json.obj [("state", Json.str "needs_review")])])])]))) :=
  ⟨rfl, isMissing_total_on_well_shaped _ rfl⟩

/-! ## Characterization of the importer's loop body -/

theorem importStep_of_none (sfields : List (String × Json)) (key : String)
    (tr : Json) (hk : getKey sfields key = none) :
    importStep (Json.obj sfields) key tr = .ok (Json.obj sfields, false) := by
  simp [importStep, pyContains, hk]

theorem importStep_of_locs_none (sfields : List (String × Json)) (key : String)
    (tr : Json) (efields : List (String × Json))
    (hk : getKey sfields key = some (Json.obj efields))
    (hloc : getKey efields "localizations" = none) :
    importStep (Json.obj sfields) key tr =
      .ok (Json.obj (setKey sfields key (Json.obj (setKey efields "localizations"
        (Json.obj (setKey [] "zh-Hans" (newRecord tr)))))), true) := by
  simp [importStep, pyContains, pySubscript, pySetItem, hk, hloc,
    getKey_setKey_self, setKey_setKey, setKey]

theorem importStep_of_locs_obj (sfields : List (String × Json)) (key : String)
    (tr : Json) (efields lfields : List (String × Json))
    (hk : getKey sfields key = some (Json.obj efields))
    (hloc : getKey efields "localizations" = some (Json.obj lfields)) :
    importStep (Json.obj sfields) key tr =
      .ok (Json.obj (setKey sfields key (Json.obj (setKey efields "localizations"
        (Json.obj (setKey lfields "zh-Hans" (newRecord tr)))))), true) := by
  simp [importStep, pyContains, pySubscript, pySetItem, hk, hloc]

theorem importStep_err_of_locs_other (sfields : List (String × Json))
    (key : String) (tr : Json) (efields : List (String × Json)) (lv : Json)
    (hk : getKey sfields key = some (Json.obj efields))
    (hloc : getKey efields "localizations" = some lv)
    (hno : ∀ lfields, lv ≠ Json.obj lfields) :
    importStep (Json.obj sfields) key tr = .error PyErr.typeError := by
  cases lv with
  | obj lfields => exact absurd rfl (hno lfields)
  | null => simp [importStep, pyContains, pySubscript, pySetItem, hk, hloc]
  | bool b => simp [importStep, pyContains, pySubscript, pySetItem, hk, hloc]
  | num n => simp [importStep, pyContains, pySubscript, pySetItem, hk, hloc]
  | str s => simp [importStep, pyContains, pySubscript, pySetItem, hk, hloc]
  | arr es => simp [importStep, pyContains, pySubscript, pySetItem, hk, hloc]

theorem importStep_err_of_entry_nonobj (sfields : List (String × Json))
    (key : String) (tr : Json) (e : Json)
    (hk : getKey sfields key = some e)
    (hne : ∀ efields, e ≠ Json.obj efields) :
    ∃ err, importStep (Json.obj sfields) key tr = .error err := by
  cases e with
  | obj efields => exact absurd rfl (hne efields)
  | null => exact ⟨PyErr.typeError, by simp [importStep, pyContains, pySubscript, hk]⟩
  | bool b => exact ⟨PyErr.typeError, by simp [importStep, pyContains, pySubscript, hk]⟩
  | num n => exact ⟨PyErr.typeError, by simp [importStep, pyContains, pySubscript, hk]⟩
  | str s =>
    refine ⟨PyErr.typeError, ?_⟩
    cases hcs : strContainsSub s "localizations" <;>
      simp [importStep, pyContains, pySubscript, pySetItem, hk, hcs]
  | arr es =>
    refine ⟨PyErr.typeError, ?_⟩
    cases hcs : es.any (fun x => eqStr x "localizations") <;>
      simp [importStep, pyContains, pySubscript, pySetItem, hk, hcs]

/-- Everything a successful loop-body run can have done. -/
theorem importStep_ok_char (sfields : List (String × Json)) (key : String)
    (tr : Json) (s1 : Json) (c : Bool)
    (h : importStep (Json.obj sfields) key tr = .ok (s1, c)) :
    (getKey sfields key = none ∧ s1 = Json.obj sfields ∧ c = false) ∨
    (∃ efields lfields, getKey sfields key = some (Json.obj efields) ∧
      ((getKey efields "localizations" = none ∧ lfields = []) ∨
        getKey efields "localizations" = some (Json.obj lfields)) ∧
      c = true ∧
      s1 = Json.obj (setKey sfields key (Json.obj (setKey efields "localizations"
        (Json.obj (setKey lfields "zh-Hans" (newRecord tr))))))) := by
  rcases hk : getKey sfields key with _ | e
  · rw [importStep_of_none sfields key tr hk] at h
    simp only [Except.ok.injEq, Prod.mk.injEq] at h
    exact Or.inl ⟨rfl, h.1.symm, h.2.symm⟩
  · by_cases hobj : ∃ efields, e = Json.obj efields
    · obtain ⟨efields, rfl⟩ := hobj
      rcases hloc : getKey efields "localizations" with _ | lv
      · rw [importStep_of_locs_none sfields key tr efields hk hloc] at h
        simp only [Except.ok.injEq, Prod.mk.injEq] at h
        exact Or.inr ⟨efields, [], rfl, Or.inl ⟨hloc, rfl⟩, h.2.symm, h.1.symm⟩
      · by_cases hlobj : ∃ lfields, lv = Json.obj lfields
        · obtain ⟨lfields, rfl⟩ := hlobj
          rw [importStep_of_locs_obj sfields key tr efields lfields hk hloc] at h
          simp only [Except.ok.injEq, Prod.mk.injEq] at h
          exact Or.inr ⟨efields, lfields, rfl, Or.inr hloc, h.2.symm, h.1.symm⟩
        · rw [importStep_err_of_locs_other sfields key tr efields lv hk hloc
            (fun lfields hh => hlobj ⟨lfields, hh⟩)] at h
          simp at h
    · obtain ⟨err, herr⟩ := importStep_err_of_entry_nonobj sfields key tr e hk
        (fun efields hh => hobj ⟨efields, hh⟩)
      rw [herr] at h
      simp at h

/-- A second run of the loop body on its own output changes nothing: the
entry already carries the freshly written zh-Hans record. -/
theorem importStep_fixed (sfields2 : List (String × Json)) (key : String)
    (tr : Json) (efields lfields : List (String × Json))
    (hk : getKey sfields2 key = some (Json.obj (setKey efields "localizations"
      (Json.obj (setKey lfields "zh-Hans" (newRecord tr)))))) :
    importStep (Json.obj sfields2) key tr = .ok (Json.obj sfields2, true) := by
  have hloc := getKey_setKey_self efields "localizations"
    (Json.obj (setKey lfields "zh-Hans" (newRecord tr)))
  rw [importStep_of_locs_obj sfields2 key tr _ _ hk hloc, setKey_setKey,
    setKey_setKey, setKey_self _ _ _ hk]

/-- On a non-dict `strings` value a successful loop body did nothing and
counted nothing (a hit would have raised `TypeError`). -/
theorem importStep_nonobj (s : Json) (key : String) (tr : Json) (s1 : Json)
    (c : Bool) (hs : ∀ fields, s ≠ Json.obj fields)
    (h : importStep s key tr = .ok (s1, c)) : s1 = s ∧ c = false := by
  cases s with
  | obj fields => exact absurd rfl (hs fields)
  | null => simp [importStep, pyContains] at h
  | bool b => simp [importStep, pyContains] at h
  | num n => simp [importStep, pyContains] at h
  | str t =>
    cases hcs : strContainsSub t key with
    | false =>
      simp [importStep, pyContains, hcs] at h
      exact ⟨h.1.symm, h.2⟩
    | true => simp [importStep, pyContains, pySubscript, hcs] at h
  | arr es =>
    cases hcs : es.any (fun x => eqStr x key) with
    | false =>
      simp [importStep, pyContains, hcs] at h
      exact ⟨h.1.symm, h.2⟩
    | true => simp [importStep, pyContains, pySubscript, hcs] at h

/-- Full characterization of a successful importer loop run over translation
pairs with unique keys, starting from a dict `strings` object: the final
count, the warnings, the untouched keys, and the updated entries. -/
theorem importLoop_char (ts : List (String × Json))
    (sfields : List (String × Json)) (S : Json) (count : Nat)
    (warns : List Msg)
    (hnd : (ts.map Prod.fst).Nodup)
    (h : importLoop (Json.obj sfields) ts = .ok (S, count, warns)) :
    ∃ sfields2, S = Json.obj sfields2 ∧
      count = (ts.filter fun kv => (getKey sfields kv.1).isSome).length ∧
      warns = (ts.filter fun kv => (getKey sfields kv.1).isNone).map
        (fun kv => Msg.warningKeyNotFound kv.1) ∧
      (∀ k, k ∉ ts.map Prod.fst → getKey sfields2 k = getKey sfields k) ∧
      (∀ k tr, (k, tr) ∈ ts → getKey sfields k = none → getKey sfields2 k = none) ∧
      (∀ k tr, (k, tr) ∈ ts → ∀ efields,
        getKey sfields k = some (Json.obj efields) →
        ∃ lfields,
          ((getKey efields "localizations" = none ∧ lfields = []) ∨
            getKey efields "localizations" = some (Json.obj lfields)) ∧
          getKey sfields2 k = some (Json.obj (setKey efields "localizations"
            (Json.obj (setKey lfields "zh-Hans" (newRecord tr)))))) ∧
      (∀ k tr, (k, tr) ∈ ts → ∀ e, getKey sfields k = some e →
        ∃ efields, e = Json.obj efields) := by
  revert hnd h
  induction ts generalizing sfields S count warns with
  | nil =>
    intro hnd h
    simp only [importLoop, Except.ok.injEq, Prod.mk.injEq] at h
    obtain ⟨rfl, rfl, rfl⟩ := h
    exact ⟨sfields, rfl, by simp, by simp, fun k _ => rfl, by simp, by simp,
      by simp⟩
  | cons p rest ih =>
    intro hnd h
    obtain ⟨k0, t0⟩ := p
    simp only [List.map_cons, List.nodup_cons] at hnd
    simp only [importLoop] at h
    rcases hstep : importStep (Json.obj sfields) k0 t0 with e | ⟨s1, c0⟩
    · rw [hstep] at h; simp at h
    · rw [hstep] at h
      simp only [except_bind_ok] at h
      rcases hloop : importLoop s1 rest with e | ⟨S', n, w⟩
      · rw [hloop] at h; simp at h
      · rw [hloop] at h
        simp only [except_bind_ok] at h
        cases c0 with
        | false =>
          simp only [Bool.false_eq_true, if_false, except_pure_eq,
            Except.ok.injEq, Prod.mk.injEq] at h
          obtain ⟨rfl, rfl, rfl⟩ := h
          rcases importStep_ok_char sfields k0 t0 s1 false hstep with
            ⟨hk0, hs1, _⟩ | ⟨efields, lfields, hk0, hloc, hc, hs1⟩
          · subst hs1
            obtain ⟨sfields2, rfl, hcount, hwarns, hout, hnone, hobj, hisobj⟩ :=
              ih sfields S' n w hnd.2 hloop
            refine ⟨sfields2, rfl, ?_, ?_, ?_, ?_, ?_, ?_⟩
            · simpa [List.filter_cons, hk0] using hcount
            · simp [List.filter_cons, hk0, hwarns]
            · intro k hk
              simp only [List.map_cons, List.mem_cons] at hk
              push_neg at hk
              exact hout k hk.2
            · intro k tr hkv hknone
              rcases List.mem_cons.mp hkv with heq | hmem
              · obtain ⟨rfl, rfl⟩ := Prod.mk.injEq .. ▸ heq
                rw [hout k hnd.1, hknone]
              · exact hnone k tr hmem hknone
            · intro k tr hkv efields hke
              rcases List.mem_cons.mp hkv with heq | hmem
              · obtain ⟨rfl, rfl⟩ := Prod.mk.injEq .. ▸ heq
                rw [hk0] at hke
                cases hke
              · exact hobj k tr hmem efields hke
            · intro k tr hkv e hke
              rcases List.mem_cons.mp hkv with heq | hmem
              · obtain ⟨rfl, rfl⟩ := Prod.mk.injEq .. ▸ heq
                rw [hk0] at hke
                cases hke
              · exact hisobj k tr hmem e hke
          · cases hc
        | true =>
          simp only [if_true, except_pure_eq, Except.ok.injEq,
            Prod.mk.injEq] at h
          obtain ⟨rfl, rfl, rfl⟩ := h
          rcases importStep_ok_char sfields k0 t0 s1 true hstep with
            ⟨hk0, hs1, hc⟩ | ⟨efields, lfields, hk0, hloc, _, hs1⟩
          · cases hc
          · subst hs1
            obtain ⟨sfields2, rfl, hcount, hwarns, hout, hnone, hobj, hisobj⟩ :=
              ih _ S' n w hnd.2 hloop
            have hrest : ∀ kv ∈ rest, ∀ vjson : Json,
                getKey (setKey sfields k0 vjson) kv.1 = getKey sfields kv.1 := by
              intro kv hkv vjson
              have hmm : kv.1 ∈ rest.map Prod.fst :=
                List.mem_map_of_mem Prod.fst hkv
              exact getKey_setKey_ne sfields k0 kv.1 vjson
                (fun hh => hnd.1 (hh ▸ hmm))
            refine ⟨sfields2, rfl, ?_, ?_, ?_, ?_, ?_, ?_⟩
            · have hfc : List.filter (fun kv => (getKey (setKey sfields k0
                  (Json.obj (setKey efields "localizations" (Json.obj
                    (setKey lfields "zh-Hans" (newRecord t0)))))) kv.1).isSome)
                  rest =
                  List.filter (fun kv => (getKey sfields kv.1).isSome) rest :=
                List.filter_congr (fun kv hkv => by rw [hrest kv hkv])
              rw [hcount, hfc]
              simp [List.filter_cons, hk0]
            · have hfc : List.filter (fun kv => (getKey (setKey sfields k0
                  (Json.obj (setKey efields "localizations" (Json.obj
                    (setKey lfields "zh-Hans" (newRecord t0)))))) kv.1).isNone)
                  rest =
                  List.filter (fun kv => (getKey sfields kv.1).isNone) rest :=
                List.filter_congr (fun kv hkv => by rw [hrest kv hkv])
              rw [hwarns, hfc]
              simp [List.filter_cons, hk0]
            · intro k hk
              simp only [List.map_cons, List.mem_cons] at hk
              push_neg at hk
              rw [hout k hk.2]
              exact getKey_setKey_ne sfields k0 k _ hk.1
            · intro k tr hkv hknone
              rcases List.mem_cons.mp hkv with heq | hmem
              · obtain ⟨rfl, rfl⟩ := Prod.mk.injEq .. ▸ heq
                rw [hk0] at hknone
                cases hknone
              · refine hnone k tr hmem ?_
                rw [hrest (k, tr) hmem]
                exact hknone
            · intro k tr hkv efields0 hke
              rcases List.mem_cons.mp hkv with heq | hmem
              · obtain ⟨rfl, rfl⟩ := Prod.mk.injEq .. ▸ heq
                rw [hk0] at hke
                obtain ⟨rfl⟩ : efields = efields0 := by
                  cases hke; rfl
                refine ⟨lfields, hloc, ?_⟩
                rw [hout k hnd.1, getKey_setKey_self]
              · refine hobj k tr hmem efields0 ?_
                rw [hrest (k, tr) hmem]
                exact hke
            · intro k tr hkv e hke
              rcases List.mem_cons.mp hkv with heq | hmem
              · obtain ⟨rfl, rfl⟩ := Prod.mk.injEq .. ▸ heq
                rw [hk0] at hke
                cases hke
                exact ⟨efields, rfl⟩
              · refine hisobj k tr hmem e ?_
                rw [hrest (k, tr) hmem]
                exact hke

/-- When no translation key is present, the loop warns for every pair and
changes nothing. -/
theorem importLoop_allmiss (ts : List (String × Json))
    (sfields : List (String × Json))
    (hmiss : ∀ kv ∈ ts, getKey sfields kv.1 = none) :
    importLoop (Json.obj sfields) ts =
      .ok (Json.obj sfields, 0, ts.map fun kv => Msg.warningKeyNotFound kv.1) := by
  induction ts with
  | nil => rfl
  | cons p rest ih =>
    obtain ⟨k0, t0⟩ := p
    have h0 : getKey sfields k0 = none := hmiss (k0, t0) (List.mem_cons_self ..)
    simp [importLoop, importStep_of_none sfields k0 t0 h0,
      ih (fun kv hkv => hmiss kv (List.mem_cons_of_mem _ hkv))]

/-- On a non-dict `strings` value a successful loop run did nothing, counted
nothing and warned on every pair. -/
theorem importLoop_nonobj (ts : List (String × Json)) (s S : Json)
    (count : Nat) (warns : List Msg)
    (hs : ∀ fields, s ≠ Json.obj fields)
    (h : importLoop s ts = .ok (S, count, warns)) :
    S = s ∧ count = 0 ∧ warns = ts.map fun kv => Msg.warningKeyNotFound kv.1 := by
  revert h
  induction ts generalizing S count warns with
  | nil =>
    intro h
    simp only [importLoop, Except.ok.injEq, Prod.mk.injEq] at h
    obtain ⟨rfl, rfl, rfl⟩ := h
    exact ⟨rfl, rfl, rfl⟩
  | cons p rest ih =>
    intro h
    obtain ⟨k0, t0⟩ := p
    simp only [importLoop] at h
    rcases hstep : importStep s k0 t0 with e | ⟨s1, c0⟩
    · rw [hstep] at h; simp at h
    · rw [hstep] at h
      simp only [except_bind_ok] at h
      obtain ⟨hs1, hc0⟩ := importStep_nonobj s k0 t0 s1 c0 hs hstep
      subst hs1; subst hc0
      rcases hloop : importLoop s1 rest with e | ⟨S2, n, w⟩
      · rw [hloop] at h; simp at h
      · rw [hloop] at h
        simp only [except_bind_ok, Bool.false_eq_true, if_false,
          except_pure_eq, Except.ok.injEq, Prod.mk.injEq] at h
        obtain ⟨rfl, rfl, rfl⟩ := h
        obtain ⟨rfl, rfl, rfl⟩ := ih S2 n w hloop
        exact ⟨rfl, rfl, rfl⟩

/-- A second identical loop run over the output of a first run reproduces it
exactly: every hit entry already carries the record the run would write. -/
theorem importLoop_idem (ts : List (String × Json))
    (sfields : List (String × Json)) (S : Json) (count : Nat)
    (warns : List Msg)
    (hnd : (ts.map Prod.fst).Nodup)
    (h : importLoop (Json.obj sfields) ts = .ok (S, count, warns)) :
    importLoop S ts = .ok (S, count, warns) := by
  revert hnd h
  induction ts generalizing sfields S count warns with
  | nil =>
    intro hnd h
    simp only [importLoop, Except.ok.injEq, Prod.mk.injEq] at h
    obtain ⟨rfl, rfl, rfl⟩ := h
    rfl
  | cons p rest ih =>
    intro hnd h
    obtain ⟨k0, t0⟩ := p
    simp only [List.map_cons, List.nodup_cons] at hnd
    simp only [importLoop] at h
    rcases hstep : importStep (Json.obj sfields) k0 t0 with e | ⟨s1, c0⟩
    · rw [hstep] at h; simp at h
    · rw [hstep] at h
      simp only [except_bind_ok] at h
      rcases hloop : importLoop s1 rest with e | ⟨S2, n, w⟩
      · rw [hloop] at h; simp at h
      · rw [hloop] at h
        simp only [except_bind_ok] at h
        rcases importStep_ok_char sfields k0 t0 s1 c0 hstep with
          ⟨hk0, hs1, hc⟩ | ⟨efields, lfields, hk0, hloc, hc, hs1⟩
        · subst hc; subst hs1
          simp only [Bool.false_eq_true, if_false, except_pure_eq,
            Except.ok.injEq, Prod.mk.injEq] at h
          obtain ⟨rfl, rfl, rfl⟩ := h
          obtain ⟨sfields2, rfl, hcn, hwn, hout, hnn, hob, hio⟩ :=
            importLoop_char rest sfields S2 n w hnd.2 hloop
          have hk0S : getKey sfields2 k0 = none := by
            rw [hout k0 hnd.1]; exact hk0
          have hstep2 := importStep_of_none sfields2 k0 t0 hk0S
          have hloop2 := ih sfields (Json.obj sfields2) n w hnd.2 hloop
          simp [importLoop, hstep2, hloop2]
        · subst hc; subst hs1
          simp only [if_true, except_pure_eq, Except.ok.injEq,
            Prod.mk.injEq] at h
          obtain ⟨rfl, rfl, rfl⟩ := h
          obtain ⟨sfields2, rfl, hcn, hwn, hout, hnn, hob, hio⟩ :=
            importLoop_char rest _ S2 n w hnd.2 hloop
          have hk0S : getKey sfields2 k0 = some (Json.obj (setKey efields
              "localizations" (Json.obj (setKey lfields "zh-Hans"
                (newRecord t0))))) := by
            rw [hout k0 hnd.1, getKey_setKey_self]
          have hstep2 := importStep_fixed sfields2 k0 t0 efields lfields hk0S
          have hloop2 := ih _ (Json.obj sfields2) n w hnd.2 hloop
          simp [importLoop, hstep2, hloop2]

/-! ## Main-level helpers -/

theorem xcstrings_ne_translations : XCSTRINGS_PATH ≠ TRANSLATIONS_PATH := by
  decide

theorem xcstrings_ne_output : XCSTRINGS_PATH ≠ OUTPUT_PATH := by
  decide

/-- A successful importer run splits into a successful merge, the catalog
write, and the final status line. -/
theorem importerMain_ok_char (fs : FS) (data translations : Json)
    (hcat : getKey fs XCSTRINGS_PATH = some data)
    (htr : getKey fs TRANSLATIONS_PATH = some translations)
    (fs1 : FS) (msgs : List Msg)
    (hrun : importerMain fs = .ok (fs1, msgs)) :
    ∃ data2 count warns,
      importMerge data translations = .ok (data2, count, warns) ∧
      fs1 = setKey fs XCSTRINGS_PATH data2 ∧
      msgs = warns ++ [Msg.updatedCount count XCSTRINGS_PATH] := by
  simp only [importerMain, hcat, htr] at hrun
  rcases hm : importMerge data translations with e | ⟨data2, count, warns⟩
  · rw [hm] at hrun; simp at hrun
  · rw [hm] at hrun
    simp only [except_bind_ok, except_pure_eq, Except.ok.injEq,
      Prod.mk.injEq] at hrun
    exact ⟨data2, count, warns, rfl, hrun.1.symm, hrun.2.symm⟩

/-- A successful merge on a catalog whose `strings` key holds a dict is a
successful loop run plus the aliasing write-back. -/
theorem importMerge_strings_obj_char (dfields sfields ts : List (String × Json))
    (hstr : getKey dfields "strings" = some (Json.obj sfields))
    (data2 : Json) (count : Nat) (warns : List Msg)
    (hm : importMerge (Json.obj dfields) (Json.obj ts) =
      .ok (data2, count, warns)) :
    ∃ S, importLoop (Json.obj sfields) ts = .ok (S, count, warns) ∧
      data2 = Json.obj (setKey dfields "strings" S) := by
  simp only [importMerge, pyGet, hstr, Option.getD, pyItems,
    except_bind_ok] at hm
  rcases hloop : importLoop (Json.obj sfields) ts with e | ⟨S, n, w⟩
  · rw [hloop] at hm; simp at hm
  · rw [hloop] at hm
    simp only [except_bind_ok, except_pure_eq, Except.ok.injEq,
      Prod.mk.injEq, writeBack, hstr, Option.isSome_some, if_true] at hm
    obtain ⟨rfl, rfl, rfl⟩ := hm
    exact ⟨S, rfl, rfl⟩

/-- When the importer wrote back the very document it read, the file system
is unchanged and a second run reproduces the first. -/
theorem importerMain_self_of_write_same (fs0 : FS) (data : Json)
    (msgs : List Msg)
    (hcat : getKey fs0 XCSTRINGS_PATH = some data)
    (hrun : importerMain fs0 = .ok (setKey fs0 XCSTRINGS_PATH data, msgs)) :
    importerMain (setKey fs0 XCSTRINGS_PATH data) =
      .ok (setKey fs0 XCSTRINGS_PATH data, msgs) := by
  rw [setKey_self fs0 XCSTRINGS_PATH data hcat] at hrun ⊢
  exact hrun

/-- The entry the importer just updated is classified as not missing. -/
theorem isMissing_updated (efields lfields : List (String × Json)) (tr : Json) :
    isMissing (Json.obj (setKey efields "localizations"
      (Json.obj (setKey lfields "zh-Hans" (newRecord tr))))) = .ok false := by
  simp [isMissing, pyGet, getKey_setKey_self, Json.truthy, newRecord, eqStr,
    Option.getD, getKey]

/-! ## Claim C8 -/

/-- C8: a missing required input file makes the script print an error naming
the path and return early: the run yields a value (no exception), the file
system is unchanged (no output written, catalog untouched), and the only
console output is the error line. -/
theorem missing_input_file_reports_and_aborts (fs : FS) :
    (getKey fs XCSTRINGS_PATH = none →
      extractorMain fs = .ok (fs, [Msg.errorNotFound XCSTRINGS_PATH]) ∧
      importerMain fs = .ok (fs, [Msg.errorNotFound XCSTRINGS_PATH])) ∧
    (∀ data, getKey fs XCSTRINGS_PATH = some data →
      getKey fs TRANSLATIONS_PATH = none →
      importerMain fs = .ok (fs, [Msg.errorNotFound TRANSLATIONS_PATH])) := by
  constructor
  · intro h
    constructor
    · simp [extractorMain, h]
    · simp [importerMain, h]
  · intro data h1 h2
    simp [importerMain, h1, h2]

theorem missing_input_file_reports_and_aborts_witness :
    extractorMain [] = .ok ([], [Msg.errorNotFound XCSTRINGS_PATH]) ∧
    importerMain [(XCSTRINGS_PATH, Json.obj [])] =
      .ok ([(XCSTRINGS_PATH, Json.obj [])],
        [Msg.errorNotFound TRANSLATIONS_PATH]) :=
  ⟨((missing_input_file_reports_and_aborts []).1 rfl).1,
    (missing_input_file_reports_and_aborts
      [(XCSTRINGS_PATH, Json.obj [])]).2 (Json.obj []) rfl rfl⟩

/-! ## Claim C10 -/

/-- C10: on a catalog without a top-level `strings` mapping, the extractor
writes an empty report and prints a count of 0 without error, and the
importer finds no key: it warns once per translation pair, reports 0
updates, and leaves the file system unchanged. -/
theorem missing_strings_mapping_behavior (fs : FS)
    (dfields ts : List (String × Json))
    (hcat : getKey fs XCSTRINGS_PATH = some (Json.obj dfields))
    (htr : getKey fs TRANSLATIONS_PATH = some (Json.obj ts))
    (hnone : getKey dfields "strings" = none) :
    extractorMain fs = .ok (setKey fs OUTPUT_PATH (Json.obj []),
      [Msg.foundCount 0, Msg.exported OUTPUT_PATH]) ∧
    importerMain fs = .ok (fs,
      (ts.map fun kv => Msg.warningKeyNotFound kv.1) ++
        [Msg.updatedCount 0 XCSTRINGS_PATH]) := by
  constructor
  · simp [extractorMain, hcat, extractMissing, pyGet, hnone, pyItems,
      extractLoop]
  · have hloop := importLoop_allmiss ts [] (fun kv _ => rfl)
    have hwb : writeBack (Json.obj dfields) (Json.obj []) = Json.obj dfields := by
      simp [writeBack, hnone]
    simp only [importerMain, hcat, htr, importMerge, pyGet, hnone,
      Option.getD, pyItems, except_bind_ok, hloop, hwb, except_pure_eq,
      setKey_self fs XCSTRINGS_PATH (Json.obj dfields) hcat]

theorem missing_strings_mapping_behavior_witness :
    extractorMain [(XCSTRINGS_PATH, Json.obj [("sourceLanguage", Json.str "en")]),
        (TRANSLATIONS_PATH, Json.obj [("Bye", Json.str "x")])] =
      .ok (setKey [(XCSTRINGS_PATH, Json.obj [("sourceLanguage", Json.str "en")]),
        (TRANSLATIONS_PATH, Json.obj [("Bye", Json.str "x")])] OUTPUT_PATH
          (Json.obj []),
        [Msg.foundCount 0, Msg.exported OUTPUT_PATH]) ∧
    importerMain [(XCSTRINGS_PATH, Json.obj [("sourceLanguage", Json.str "en")]),
        (TRANSLATIONS_PATH, Json.obj [("Bye", Json.str "x")])] =
      .ok ([(XCSTRINGS_PATH, Json.obj [("sourceLanguage", Json.str "en")]),
        (TRANSLATIONS_PATH, Json.obj [("Bye", Json.str "x")])],
        ([("Bye", Json.str "x")].map fun kv => Msg.warningKeyNotFound kv.1) ++
          [Msg.updatedCount 0 XCSTRINGS_PATH]) :=
  missing_strings_mapping_behavior _ [("sourceLanguage", Json.str "en")]
    [("Bye", Json.str "x")] rfl rfl rfl

/-! ## Claim C2 -/

/-- C2: every translation pair whose key exists in the catalog's strings
mapping gets its entry's `localizations` sub-object ensured (created empty
if absent) and its zh-Hans entry set to exactly
`{stringUnit: {state: "translated", value: translated-text}}`; each such
pair adds one to the final update count, and the whole catalog document is
written back to the catalog path. -/
theorem import_sets_translated_and_writes_back (fs0 : FS)
    (dfields sfields ts : List (String × Json))
    (hcat : getKey fs0 XCSTRINGS_PATH = some (Json.obj dfields))
    (htr : getKey fs0 TRANSLATIONS_PATH = some (Json.obj ts))
    (hstr : getKey dfields "strings" = some (Json.obj sfields))
    (hnd : (ts.map Prod.fst).Nodup)
    (fs1 : FS) (msgs : List Msg)
    (hrun : importerMain fs0 = .ok (fs1, msgs))
    (key : String) (tr entry : Json)
    (hmem : (key, tr) ∈ ts)
    (hent : getKey sfields key = some entry) :
    ∃ sfields2 efields lfields,
      entry = Json.obj efields ∧
      getKey fs1 XCSTRINGS_PATH =
        some (Json.obj (setKey dfields "strings" (Json.obj sfields2))) ∧
      ((getKey efields "localizations" = none ∧ lfields = []) ∨
        getKey efields "localizations" = some (Json.obj lfields)) ∧
      getKey sfields2 key = some (Json.obj (setKey efields "localizations"
        (Json.obj (setKey lfields "zh-Hans" (newRecord tr))))) ∧
      msgs.getLast? = some (Msg.updatedCount
        ((ts.filter fun kv => (getKey sfields kv.1).isSome).length)
        XCSTRINGS_PATH) ∧
      (key, tr) ∈ ts.filter fun kv => (getKey sfields kv.1).isSome := by
  obtain ⟨data2, count, warns, hm, rfl, rfl⟩ :=
    importerMain_ok_char fs0 _ _ hcat htr fs1 msgs hrun
  obtain ⟨S, hloop, rfl⟩ :=
    importMerge_strings_obj_char dfields sfields ts hstr data2 count warns hm
  obtain ⟨sfields2, rfl, hcount, hwarns, hout, hnone, hobj, hisobj⟩ :=
    importLoop_char ts sfields _ count warns hnd hloop
  obtain ⟨efields, rfl⟩ := hisobj key tr hmem entry hent
  obtain ⟨lfields, hloc, hkey2⟩ := hobj key tr hmem efields hent
  refine ⟨sfields2, efields, lfields, rfl, ?_, hloc, hkey2, ?_, ?_⟩
  · rw [getKey_setKey_self]
  · rw [hcount, List.getLast?_concat]
  · exact List.mem_filter.mpr ⟨hmem, by rw [hent]; rfl⟩

theorem import_sets_translated_and_writes_back_witness :
    ∃ sfields2 efields lfields,
      (Json.obj [] : Json) = Json.obj efields ∧
      getKey (setKey [(XCSTRINGS_PATH, Json.obj [("strings",
          Json.obj [("Hello", Json.obj [])])]),
        (TRANSLATIONS_PATH, Json.obj [("Hello", Json.str "nihao")])]
        XCSTRINGS_PATH
        (Json.obj (setKey [("strings", Json.obj [("Hello", Json.obj [])])]
          "strings" (Json.obj (setKey [("Hello", Json.obj [])] "Hello"
            (Json.obj (setKey [] "localizations" (Json.obj (setKey []
              "zh-Hans" (newRecord (Json.str "nihao"))))))))))) XCSTRINGS_PATH =
        some (Json.obj (setKey [("strings", Json.obj [("Hello", Json.obj [])])]
          "strings" (Json.obj sfields2))) ∧
      ((getKey efields "localizations" = none ∧ lfields = []) ∨
        getKey efields "localizations" = some (Json.obj lfields)) ∧
      getKey sfields2 "Hello" = some (Json.obj (setKey efields "localizations"
        (Json.obj (setKey lfields "zh-Hans"
          (newRecord (Json.str "nihao")))))) ∧
      ([Msg.updatedCount 1 XCSTRINGS_PATH].getLast? = some (Msg.updatedCount
        (([("Hello", Json.str "nihao")].filter fun kv =>
          (getKey [("Hello", Json.obj [])] kv.1).isSome).length)
        XCSTRINGS_PATH)) ∧
      ("Hello", Json.str "nihao") ∈
        [("Hello", Json.str "nihao")].filter fun kv =>
          (getKey [("Hello", Json.obj [])] kv.1).isSome :=
  import_sets_translated_and_writes_back
    [(XCSTRINGS_PATH, Json.obj [("strings", Json.obj [("Hello", Json.obj [])])]),
      (TRANSLATIONS_PATH, Json.obj [("Hello", Json.str "nihao")])]
    [("strings", Json.obj [("Hello", Json.obj [])])]
    [("Hello", Json.obj [])]
    [("Hello", Json.str "nihao")]
    rfl rfl rfl (by simp) _ [Msg.updatedCount 1 XCSTRINGS_PATH] rfl
    "Hello" (Json.str "nihao") (Json.obj [])
    (List.mem_singleton.mpr rfl) rfl

/-! ## Claim C5 -/

/-- C5: the importer only ever writes the state value `"translated"` (the
record it installs is exactly `{stringUnit: {state: "translated", value:
tr}}`), and for every updated entry it leaves every field other than
`localizations` unchanged and every localization record for locales other
than zh-Hans unchanged. -/
theorem import_frame_preserves_other_data (fs0 : FS)
    (dfields sfields ts : List (String × Json))
    (hcat : getKey fs0 XCSTRINGS_PATH = some (Json.obj dfields))
    (htr : getKey fs0 TRANSLATIONS_PATH = some (Json.obj ts))
    (hstr : getKey dfields "strings" = some (Json.obj sfields))
    (hnd : (ts.map Prod.fst).Nodup)
    (fs1 : FS) (msgs : List Msg)
    (hrun : importerMain fs0 = .ok (fs1, msgs))
    (key : String) (tr entry : Json)
    (hmem : (key, tr) ∈ ts)
    (hent : getKey sfields key = some entry) :
    ∃ sfields2 efields lfields lfields2,
      entry = Json.obj efields ∧
      getKey fs1 XCSTRINGS_PATH =
        some (Json.obj (setKey dfields "strings" (Json.obj sfields2))) ∧
      ((getKey efields "localizations" = none ∧ lfields = []) ∨
        getKey efields "localizations" = some (Json.obj lfields)) ∧
      lfields2 = setKey lfields "zh-Hans" (newRecord tr) ∧
      getKey sfields2 key = some (Json.obj (setKey efields "localizations"
        (Json.obj lfields2))) ∧
      (∀ f, f ≠ "localizations" →
        getKey (setKey efields "localizations" (Json.obj lfields2)) f =
          getKey efields f) ∧
      (∀ loc, loc ≠ "zh-Hans" → getKey lfields2 loc = getKey lfields loc) ∧
      getKey lfields2 "zh-Hans" = some (newRecord tr) ∧
      newRecord tr = Json.obj [("stringUnit", Json.obj
        [("state", Json.str "translated"), ("value", tr)])] := by
  obtain ⟨data2, count, warns, hm, rfl, rfl⟩ :=
    importerMain_ok_char fs0 _ _ hcat htr fs1 msgs hrun
  obtain ⟨S, hloop, rfl⟩ :=
    importMerge_strings_obj_char dfields sfields ts hstr data2 count warns hm
  obtain ⟨sfields2, rfl, hcount, hwarns, hout, hnone, hobj, hisobj⟩ :=
    importLoop_char ts sfields _ count warns hnd hloop
  obtain ⟨efields, rfl⟩ := hisobj key tr hmem entry hent
  obtain ⟨lfields, hloc, hkey2⟩ := hobj key tr hmem efields hent
  refine ⟨sfields2, efields, lfields, setKey lfields "zh-Hans" (newRecord tr),
    rfl, ?_, hloc, rfl, hkey2, ?_, ?_, ?_, rfl⟩
  · rw [getKey_setKey_self]
  · intro f hf
    exact getKey_setKey_ne efields "localizations" f _ hf
  · intro loc hloc2
    exact getKey_setKey_ne lfields "zh-Hans" loc _ hloc2
  · exact getKey_setKey_self lfields "zh-Hans" (newRecord tr)

theorem import_frame_preserves_other_data_witness :
    ∃ sfields2 efields lfields lfields2,
      (Json.obj [("comment", Json.str "greeting"), ("localizations",
        Json.obj [("fr", Json.str "bonjour")])] : Json) = Json.obj efields ∧
      getKey (setKey [(XCSTRINGS_PATH, Json.obj [("strings", Json.obj
          [("Hello", Json.obj [("comment", Json.str "greeting"),
            ("localizations", Json.obj [("fr", Json.str "bonjour")])])])]),
        (TRANSLATIONS_PATH, Json.obj [("Hello", Json.str "nihao")])]
        XCSTRINGS_PATH
        (Json.obj (setKey [("strings", Json.obj [("Hello", Json.obj
          [("comment", Json.str "greeting"), ("localizations", Json.obj
            [("fr", Json.str "bonjour")])])])] "strings"
          (Json.obj (setKey [("Hello", Json.obj [("comment",
            Json.str "greeting"), ("localizations", Json.obj
              [("fr", Json.str "bonjour")])])] "Hello"
            (Json.obj (setKey [("comment", Json.str "greeting"),
              ("localizations", Json.obj [("fr", Json.str "bonjour")])]
              "localizations" (Json.obj (setKey [("fr", Json.str "bonjour")]
                "zh-Hans" (newRecord (Json.str "nihao"))))))))))) XCSTRINGS_PATH =
        some (Json.obj (setKey [("strings", Json.obj [("Hello", Json.obj
          [("comment", Json.str "greeting"), ("localizations", Json.obj
            [("fr", Json.str "bonjour")])])])] "strings"
          (Json.obj sfields2))) ∧
      ((getKey efields "localizations" = none ∧ lfields = []) ∨
        getKey efields "localizations" = some (Json.obj lfields)) ∧
      lfields2 = setKey lfields "zh-Hans" (newRecord (Json.str "nihao")) ∧
      getKey sfields2 "Hello" = some (Json.obj (setKey efields
        "localizations" (Json.obj lfields2))) ∧
      (∀ f, f ≠ "localizations" →
        getKey (setKey efields "localizations" (Json.obj lfields2)) f =
          getKey efields f) ∧
      (∀ loc, loc ≠ "zh-Hans" → getKey lfields2 loc = getKey lfields loc) ∧
      getKey lfields2 "zh-Hans" = some (newRecord (Json.str "nihao")) ∧
      newRecord (Json.str "nihao") = Json.obj [("stringUnit", Json.obj
        [("state", Json.str "translated"), ("value", Json.str "nihao")])] :=
  import_frame_preserves_other_data
    [(XCSTRINGS_PATH, Json.obj [("strings", Json.obj [("Hello", Json.obj
        [("comment", Json.str "greeting"), ("localizations", Json.obj
          [("fr", Json.str "bonjour")])])])]),
      (TRANSLATIONS_PATH, Json.obj [("Hello", Json.str "nihao")])]
    [("strings", Json.obj [("Hello", Json.obj [("comment",
      Json.str "greeting"), ("localizations", Json.obj
        [("fr", Json.str "bonjour")])])])]
    [("Hello", Json.obj [("comment", Json.str "greeting"),
      ("localizations", Json.obj [("fr", Json.str "bonjour")])])]
    [("Hello", Json.str "nihao")]
    rfl rfl rfl (by simp) _ [Msg.updatedCount 1 XCSTRINGS_PATH] rfl
    "Hello" (Json.str "nihao")
    (Json.obj [("comment", Json.str "greeting"), ("localizations",
      Json.obj [("fr", Json.str "bonjour")])])
    (List.mem_singleton.mpr rfl) rfl

/-! ## Claim C6 -/

/-- C6: a translation pair whose key is not in the catalog's strings mapping
produces a warning naming the key, creates no catalog entry (the strings
mapping's key set is unchanged), is not counted, and does not abort the
batch (the final count still counts every hit pair). -/
theorem import_unknown_key_warns_and_skips (fs0 : FS)
    (dfields sfields ts : List (String × Json))
    (hcat : getKey fs0 XCSTRINGS_PATH = some (Json.obj dfields))
    (htr : getKey fs0 TRANSLATIONS_PATH = some (Json.obj ts))
    (hstr : getKey dfields "strings" = some (Json.obj sfields))
    (hnd : (ts.map Prod.fst).Nodup)
    (fs1 : FS) (msgs : List Msg)
    (hrun : importerMain fs0 = .ok (fs1, msgs))
    (key : String) (tr : Json)
    (hmem : (key, tr) ∈ ts)
    (hmiss : getKey sfields key = none) :
    ∃ sfields2,
      getKey fs1 XCSTRINGS_PATH =
        some (Json.obj (setKey dfields "strings" (Json.obj sfields2))) ∧
      Msg.warningKeyNotFound key ∈ msgs ∧
      getKey sfields2 key = none ∧
      (∀ k, (getKey sfields2 k).isSome = (getKey sfields k).isSome) ∧
      msgs.getLast? = some (Msg.updatedCount
        ((ts.filter fun kv => (getKey sfields kv.1).isSome).length)
        XCSTRINGS_PATH) ∧
      (key, tr) ∉ ts.filter fun kv => (getKey sfields kv.1).isSome := by
  obtain ⟨data2, count, warns, hm, rfl, rfl⟩ :=
    importerMain_ok_char fs0 _ _ hcat htr fs1 msgs hrun
  obtain ⟨S, hloop, rfl⟩ :=
    importMerge_strings_obj_char dfields sfields ts hstr data2 count warns hm
  obtain ⟨sfields2, rfl, hcount, hwarns, hout, hnone, hobj, hisobj⟩ :=
    importLoop_char ts sfields _ count warns hnd hloop
  refine ⟨sfields2, ?_, ?_, ?_, ?_, ?_, ?_⟩
  · rw [getKey_setKey_self]
  · refine List.mem_append_left _ ?_
    rw [hwarns]
    exact List.mem_map.mpr ⟨(key, tr),
      List.mem_filter.mpr ⟨hmem, by rw [hmiss]; rfl⟩, rfl⟩
  · exact hnone key tr hmem hmiss
  · intro k
    by_cases hk : k ∈ ts.map Prod.fst
    · obtain ⟨⟨kx, trx⟩, hkv, hfst⟩ := List.mem_map.mp hk
      have hkk : kx = k := hfst
      rw [← hkk]
      rcases hgk : getKey sfields kx with _ | e
      · rw [hnone kx trx hkv hgk]
      · obtain ⟨efields, rfl⟩ := hisobj kx trx hkv e hgk
        obtain ⟨lfields, hloc, hkey2⟩ := hobj kx trx hkv efields hgk
        rw [hkey2]
        rfl
    · rw [hout k hk]
  · rw [hcount, List.getLast?_concat]
  · intro hcontra
    have hsomem := (List.mem_filter.mp hcontra).2
    rw [hmiss] at hsomem
    simp at hsomem

theorem import_unknown_key_warns_and_skips_witness :
    ∃ sfields2,
      getKey (setKey [(XCSTRINGS_PATH, Json.obj [("strings", Json.obj [])]),
        (TRANSLATIONS_PATH, Json.obj [("Bye", Json.str "zaijian")])]
        XCSTRINGS_PATH (Json.obj (setKey [("strings", Json.obj [])] "strings"
          (Json.obj ([] : List (String × Json)))))) XCSTRINGS_PATH =
        some (Json.obj (setKey [("strings", Json.obj [])] "strings"
          (Json.obj sfields2))) ∧
      Msg.warningKeyNotFound "Bye" ∈
        [Msg.warningKeyNotFound "Bye", Msg.updatedCount 0 XCSTRINGS_PATH] ∧
      getKey sfields2 "Bye" = none ∧
      (∀ k, (getKey sfields2 k).isSome =
        (getKey ([] : List (String × Json)) k).isSome) ∧
      ([Msg.warningKeyNotFound "Bye",
        Msg.updatedCount 0 XCSTRINGS_PATH].getLast? = some (Msg.updatedCount
        (([("Bye", Json.str "zaijian")].filter fun kv =>
          (getKey ([] : List (String × Json)) kv.1).isSome).length)
        XCSTRINGS_PATH)) ∧
      ("Bye", Json.str "zaijian") ∉
        [("Bye", Json.str "zaijian")].filter fun kv =>
          (getKey ([] : List (String × Json)) kv.1).isSome :=
  import_unknown_key_warns_and_skips
    [(XCSTRINGS_PATH, Json.obj [("strings", Json.obj [])]),
      (TRANSLATIONS_PATH, Json.obj [("Bye", Json.str "zaijian")])]
    [("strings", Json.obj [])] [] [("Bye", Json.str "zaijian")]
    rfl rfl rfl (by simp) _
    [Msg.warningKeyNotFound "Bye", Msg.updatedCount 0 XCSTRINGS_PATH] rfl
    "Bye" (Json.str "zaijian") (List.mem_singleton.mpr rfl) rfl

/-! ## Claim C9 -/

/-- C9: updating a key whose entry already has a zh-Hans localization record
replaces that record wholesale: the new record is exactly
`{stringUnit: {state: "translated", value: tr}}`, so any other field the
old zh-Hans record carried (e.g. substitutions or variations) is gone,
while records for other locales are preserved. -/
theorem import_replaces_zh_hans_record_wholesale (fs0 : FS)
    (dfields sfields ts efields lfields zfields : List (String × Json))
    (hcat : getKey fs0 XCSTRINGS_PATH = some (Json.obj dfields))
    (htr : getKey fs0 TRANSLATIONS_PATH = some (Json.obj ts))
    (hstr : getKey dfields "strings" = some (Json.obj sfields))
    (hnd : (ts.map Prod.fst).Nodup)
    (fs1 : FS) (msgs : List Msg)
    (hrun : importerMain fs0 = .ok (fs1, msgs))
    (key : String) (tr : Json)
    (hmem : (key, tr) ∈ ts)
    (hent : getKey sfields key = some (Json.obj efields))
    (hloc0 : getKey efields "localizations" = some (Json.obj lfields))
    (hzh0 : getKey lfields "zh-Hans" = some (Json.obj zfields))
    (fld : String) (w : Json)
    (hfld : getKey zfields fld = some w)
    (hfldne : fld ≠ "stringUnit") :
    ∃ sfields2 lfields2,
      getKey fs1 XCSTRINGS_PATH =
        some (Json.obj (setKey dfields "strings" (Json.obj sfields2))) ∧
      getKey sfields2 key = some (Json.obj (setKey efields "localizations"
        (Json.obj lfields2))) ∧
      getKey lfields2 "zh-Hans" = some (Json.obj [("stringUnit", Json.obj
        [("state", Json.str "translated"), ("value", tr)])]) ∧
      getKey [("stringUnit", Json.obj [("state", Json.str "translated"),
        ("value", tr)])] fld = none ∧
      (∀ loc, loc ≠ "zh-Hans" → getKey lfields2 loc = getKey lfields loc) := by
  obtain ⟨data2, count, warns, hm, rfl, rfl⟩ :=
    importerMain_ok_char fs0 _ _ hcat htr fs1 msgs hrun
  obtain ⟨S, hloop, rfl⟩ :=
    importMerge_strings_obj_char dfields sfields ts hstr data2 count warns hm
  obtain ⟨sfields2, rfl, hcount, hwarns, hout, hnone, hobj, hisobj⟩ :=
    importLoop_char ts sfields _ count warns hnd hloop
  obtain ⟨lfields1, hloc, hkey2⟩ := hobj key tr hmem efields hent
  have hleq : lfields1 = lfields := by
    rcases hloc with ⟨hl, _⟩ | hl
    · rw [hl] at hloc0; cases hloc0
    · rw [hl] at hloc0
      injection hloc0 with hh
      injection hh
  rw [hleq] at hkey2
  refine ⟨sfields2, setKey lfields "zh-Hans" (newRecord tr), ?_, hkey2, ?_,
    ?_, ?_⟩
  · rw [getKey_setKey_self]
  · exact getKey_setKey_self lfields "zh-Hans" (newRecord tr)
  · simp [getKey, Ne.symm hfldne]
  · intro loc hl2
    exact getKey_setKey_ne lfields "zh-Hans" loc _ hl2

theorem import_replaces_zh_hans_record_wholesale_witness :
    ∃ sfields2 lfields2,
      getKey (setKey [(XCSTRINGS_PATH, Json.obj [("strings", Json.obj
          [("Hello", Json.obj [("localizations", Json.obj [("zh-Hans",
            Json.obj [("substitutions", Json.obj []), ("stringUnit",
              Json.obj [("state", Json.str "needs_review")])]),
            ("fr", Json.str "bonjour")])])])]),
        (TRANSLATIONS_PATH, Json.obj [("Hello", Json.str "nihao")])]
        XCSTRINGS_PATH
        (Json.obj (setKey [("strings", Json.obj [("Hello", Json.obj
          [("localizations", Json.obj [("zh-Hans", Json.obj
            [("substitutions", Json.obj []), ("stringUnit", Json.obj
              [("state", Json.str "needs_review")])]), ("fr",
            Json.str "bonjour")])])])] "strings"
          (Json.obj (setKey [("Hello", Json.obj [("localizations",
            Json.obj [("zh-Hans", Json.obj [("substitutions", Json.obj []),
              ("stringUnit", Json.obj [("state",
                Json.str "needs_review")])]), ("fr",
              Json.str "bonjour")])])] "Hello"
            (Json.obj (setKey [("localizations", Json.obj [("zh-Hans",
              Json.obj [("substitutions", Json.obj []), ("stringUnit",
                Json.obj [("state", Json.str "needs_review")])]),
              ("fr", Json.str "bonjour")])] "localizations"
              (Json.obj (setKey [("zh-Hans", Json.obj [("substitutions",
                Json.obj []), ("stringUnit", Json.obj [("state",
                  Json.str "needs_review")])]), ("fr", Json.str "bonjour")]
                "zh-Hans" (newRecord (Json.str "nihao"))))))))))) XCSTRINGS_PATH =
        some (Json.obj (setKey [("strings", Json.obj [("Hello", Json.obj
          [("localizations", Json.obj [("zh-Hans", Json.obj
            [("substitutions", Json.obj []), ("stringUnit", Json.obj
              [("state", Json.str "needs_review")])]), ("fr",
            Json.str "bonjour")])])])] "strings" (Json.obj sfields2))) ∧
      getKey sfields2 "Hello" = some (Json.obj (setKey [("localizations",
        Json.obj [("zh-Hans", Json.obj [("substitutions", Json.obj []),
          ("stringUnit", Json.obj [("state", Json.str "needs_review")])]),
        ("fr", Json.str "bonjour")])] "localizations"
        (Json.obj lfields2))) ∧
      getKey lfields2 "zh-Hans" = some (Json.obj [("stringUnit", Json.obj
        [("state", Json.str "translated"),
          ("value", Json.str "nihao")])]) ∧
      getKey [("stringUnit", Json.obj [("state", Json.str "translated"),
        ("value", Json.str "nihao")])] "substitutions" = none ∧
      (∀ loc, loc ≠ "zh-Hans" → getKey lfields2 loc =
        getKey [("zh-Hans", Json.obj [("substitutions", Json.obj []),
          ("stringUnit", Json.obj [("state", Json.str "needs_review")])]),
          ("fr", Json.str "bonjour")] loc) :=
  import_replaces_zh_hans_record_wholesale
    [(XCSTRINGS_PATH, Json.obj [("strings", Json.obj [("Hello", Json.obj
        [("localizations", Json.obj [("zh-Hans", Json.obj
          [("substitutions", Json.obj []), ("stringUnit", Json.obj
            [("state", Json.str "needs_review")])]), ("fr",
          Json.str "bonjour")])])])]),
      (TRANSLATIONS_PATH, Json.obj [("Hello", Json.str "nihao")])]
    [("strings", Json.obj [("Hello", Json.obj [("localizations", Json.obj
      [("zh-Hans", Json.obj [("substitutions", Json.obj []), ("stringUnit",
        Json.obj [("state", Json.str "needs_review")])]), ("fr",
      Json.str "bonjour")])])])]
    [("Hello", Json.obj [("localizations", Json.obj [("zh-Hans", Json.obj
      [("substitutions", Json.obj []), ("stringUnit", Json.obj [("state",
        Json.str "needs_review")])]), ("fr", Json.str "bonjour")])])]
    [("Hello", Json.str "nihao")]
    [("localizations", Json.obj [("zh-Hans", Json.obj [("substitutions",
      Json.obj []), ("stringUnit", Json.obj [("state",
        Json.str "needs_review")])]), ("fr", Json.str "bonjour")])]
    [("zh-Hans", Json.obj [("substitutions", Json.obj []), ("stringUnit",
      Json.obj [("state", Json.str "needs_review")])]), ("fr",
      Json.str "bonjour")]
    [("substitutions", Json.obj []), ("stringUnit", Json.obj [("state",
      Json.str "needs_review")])]
    rfl rfl rfl (by simp) _ [Msg.updatedCount 1 XCSTRINGS_PATH] rfl
    "Hello" (Json.str "nihao") (List.mem_singleton.mpr rfl)
    rfl rfl rfl "substitutions" (Json.obj []) rfl (by decide)

/-! ## Claim C7 -/

/-- C7: running the importer twice in succession with the same translations
input yields the same final catalog document as running it once (in fact
the same file system and the same console output). -/
theorem import_idempotent (fs0 : FS) (data : Json)
    (ts : List (String × Json))
    (hcat : getKey fs0 XCSTRINGS_PATH = some data)
    (htr : getKey fs0 TRANSLATIONS_PATH = some (Json.obj ts))
    (hnd : (ts.map Prod.fst).Nodup)
    (fs1 : FS) (msgs : List Msg)
    (hrun : importerMain fs0 = .ok (fs1, msgs)) :
    importerMain fs1 = .ok (fs1, msgs) := by
  obtain ⟨data2, count, warns, hm, rfl, rfl⟩ :=
    importerMain_ok_char fs0 data _ hcat htr fs1 msgs hrun
  cases data with
  | null => simp [importMerge, pyGet] at hm
  | bool b => simp [importMerge, pyGet] at hm
  | num n => simp [importMerge, pyGet] at hm
  | str t => simp [importMerge, pyGet] at hm
  | arr es => simp [importMerge, pyGet] at hm
  | obj dfields =>
    rcases hs0 : getKey dfields "strings" with _ | s0
    · have hloop := importLoop_allmiss ts [] (fun kv _ => rfl)
      have hmv : importMerge (Json.obj dfields) (Json.obj ts) =
          .ok (Json.obj dfields, 0,
            ts.map fun kv => Msg.warningKeyNotFound kv.1) := by
        simp [importMerge, pyGet, hs0, pyItems, hloop, writeBack]
      rw [hmv] at hm
      simp only [Except.ok.injEq, Prod.mk.injEq] at hm
      obtain ⟨rfl, rfl, rfl⟩ := hm
      exact importerMain_self_of_write_same fs0 (Json.obj dfields) _ hcat hrun
    · have hsplit : (∃ sfields, s0 = Json.obj sfields) ∨
          ∀ fields, s0 ≠ Json.obj fields := by
        cases s0
        case obj sfields => exact Or.inl ⟨sfields, rfl⟩
        all_goals exact Or.inr (fun fields h => Json.noConfusion h)
      rcases hsplit with ⟨sfields, rfl⟩ | hnonobj
      · obtain ⟨S, hloop, rfl⟩ :=
          importMerge_strings_obj_char dfields sfields ts hs0 data2 count
            warns hm
        have hloop2 := importLoop_idem ts sfields S count warns hnd hloop
        have hX : getKey (setKey fs0 XCSTRINGS_PATH
            (Json.obj (setKey dfields "strings" S))) XCSTRINGS_PATH =
            some (Json.obj (setKey dfields "strings" S)) :=
          getKey_setKey_self fs0 XCSTRINGS_PATH _
        have hT : getKey (setKey fs0 XCSTRINGS_PATH
            (Json.obj (setKey dfields "strings" S))) TRANSLATIONS_PATH =
            some (Json.obj ts) := by
          rw [getKey_setKey_ne fs0 XCSTRINGS_PATH TRANSLATIONS_PATH _
            (Ne.symm xcstrings_ne_translations)]
          exact htr
        have hmerge2 : importMerge (Json.obj (setKey dfields "strings" S))
            (Json.obj ts) =
            .ok (Json.obj (setKey dfields "strings" S), count, warns) := by
          simp only [importMerge, pyGet, getKey_setKey_self, Option.getD,
            pyItems, except_bind_ok, hloop2, writeBack, Option.isSome_some,
            if_true, except_pure_eq, setKey_setKey]
        simp only [importerMain, hX, hT, hmerge2, except_bind_ok,
          except_pure_eq, setKey_setKey]
      · simp only [importMerge, pyGet, hs0, Option.getD, pyItems,
          except_bind_ok] at hm
        rcases hloop : importLoop s0 ts with e | ⟨S2, n, w⟩
        · rw [hloop] at hm; simp at hm
        · rw [hloop] at hm
          simp only [except_bind_ok, except_pure_eq, Except.ok.injEq,
            Prod.mk.injEq] at hm
          obtain ⟨hS2, hn0, hw⟩ := importLoop_nonobj ts s0 S2 n w hnonobj hloop
          subst hS2
          have hwb : writeBack (Json.obj dfields) S2 = Json.obj dfields := by
            simp [writeBack, hs0, setKey_self dfields "strings" S2 hs0]
          rw [hwb] at hm
          obtain ⟨rfl, rfl, rfl⟩ := hm
          exact importerMain_self_of_write_same fs0 (Json.obj dfields) _
            hcat hrun

theorem import_idempotent_witness :
    importerMain (setKey [(XCSTRINGS_PATH, Json.obj [("strings", Json.obj
        [("Hello", Json.obj [])])]),
      (TRANSLATIONS_PATH, Json.obj [("Hello", Json.str "nihao")])]
      XCSTRINGS_PATH (Json.obj (setKey [("strings", Json.obj [("Hello",
        Json.obj [])])] "strings" (Json.obj (setKey [("Hello", Json.obj [])]
        "Hello" (Json.obj (setKey [] "localizations" (Json.obj (setKey []
          "zh-Hans" (newRecord (Json.str "nihao"))))))))))) =
      .ok (setKey [(XCSTRINGS_PATH, Json.obj [("strings", Json.obj
          [("Hello", Json.obj [])])]),
        (TRANSLATIONS_PATH, Json.obj [("Hello", Json.str "nihao")])]
        XCSTRINGS_PATH (Json.obj (setKey [("strings", Json.obj [("Hello",
          Json.obj [])])] "strings" (Json.obj (setKey [("Hello",
          Json.obj [])] "Hello" (Json.obj (setKey [] "localizations"
          (Json.obj (setKey [] "zh-Hans"
            (newRecord (Json.str "nihao")))))))))),
        [Msg.updatedCount 1 XCSTRINGS_PATH]) :=
  import_idempotent
    [(XCSTRINGS_PATH, Json.obj [("strings", Json.obj [("Hello",
        Json.obj [])])]),
      (TRANSLATIONS_PATH, Json.obj [("Hello", Json.str "nihao")])]
    (Json.obj [("strings", Json.obj [("Hello", Json.obj [])])])
    [("Hello", Json.str "nihao")]
    rfl rfl (by simp) _ [Msg.updatedCount 1 XCSTRINGS_PATH] rfl

/-! ## Claim C4 -/

/-- C4: importing translations `{K: V}` for a key K present in the
catalog's strings mapping and then running the extractor on the resulting
catalog yields a missing-translations report that does not contain K. -/
theorem import_then_extract_clears_key (fs0 : FS)
    (dfields sfields : List (String × Json)) (K V : String) (entry : Json)
    (hcat : getKey fs0 XCSTRINGS_PATH = some (Json.obj dfields))
    (htr : getKey fs0 TRANSLATIONS_PATH = some (Json.obj [(K, Json.str V)]))
    (hstr : getKey dfields "strings" = some (Json.obj sfields))
    (hnd : (sfields.map Prod.fst).Nodup)
    (hK : getKey sfields K = some entry)
    (fs1 fs2 : FS) (m1 m2 : List Msg)
    (h1 : importerMain fs0 = .ok (fs1, m1))
    (h2 : extractorMain fs1 = .ok (fs2, m2)) :
    ∀ report, getKey fs2 OUTPUT_PATH = some (Json.obj report) →
      getKey report K = none := by
  obtain ⟨data2, count, warns, hm, rfl, rfl⟩ :=
    importerMain_ok_char fs0 _ _ hcat htr fs1 m1 h1
  obtain ⟨S, hloop, rfl⟩ :=
    importMerge_strings_obj_char dfields sfields [(K, Json.str V)] hstr
      data2 count warns hm
  simp only [importLoop] at hloop
  rcases hstep : importStep (Json.obj sfields) K (Json.str V) with e | ⟨s1, c0⟩
  · rw [hstep] at hloop; simp at hloop
  · rw [hstep] at hloop
    simp only [except_bind_ok] at hloop
    rcases importStep_ok_char sfields K (Json.str V) s1 c0 hstep with
      ⟨hk0, hs1, hc⟩ | ⟨efields, lfields, hk0, hloc, hc, hs1⟩
    · rw [hk0] at hK; cases hK
    · subst hc
      subst hs1
      simp only [importLoop, except_bind_ok, if_true, except_pure_eq,
        Except.ok.injEq, Prod.mk.injEq] at hloop
      obtain ⟨rfl, rfl, rfl⟩ := hloop
      simp only [extractorMain, getKey_setKey_self] at h2
      rcases hex : extractMissing (Json.obj (setKey dfields "strings"
          (Json.obj (setKey sfields K (Json.obj (setKey efields
            "localizations" (Json.obj (setKey lfields "zh-Hans"
              (newRecord (Json.str V)))))))))) with e | report0
      · rw [hex] at h2; simp at h2
      · rw [hex] at h2
        simp only [except_bind_ok, except_pure_eq, Except.ok.injEq,
          Prod.mk.injEq] at h2
        obtain ⟨rfl, rfl⟩ := h2
        intro report hrep
        rw [getKey_setKey_self] at hrep
        have hrr : report0 = report := by
          simpa using hrep
        rw [← hrr]
        have hnd2 : ((setKey sfields K (Json.obj (setKey efields
            "localizations" (Json.obj (setKey lfields "zh-Hans"
              (newRecord (Json.str V))))))).map Prod.fst).Nodup := by
          rw [keys_setKey_of_isSome sfields K _ (by rw [hK]; rfl)]
          exact hnd
        have hmem2 : (K, Json.obj (setKey efields "localizations"
            (Json.obj (setKey lfields "zh-Hans"
              (newRecord (Json.str V)))))) ∈
            setKey sfields K (Json.obj (setKey efields "localizations"
              (Json.obj (setKey lfields "zh-Hans"
                (newRecord (Json.str V)))))) :=
          getKey_mem _ _ _ (getKey_setKey_self sfields K _)
        simp only [extractMissing, pyGet, getKey_setKey_self, Option.getD,
          pyItems, except_bind_ok] at hex
        obtain ⟨b, hmb, hsome⟩ := extractLoop_mem_char _ [] report0 hnd2
          (fun k _ => rfl) hex K _ hmem2
        rw [isMissing_updated] at hmb
        obtain rfl : b = false := by
          injection hmb with hh
          exact hh.symm
        rcases hgk : getKey report0 K with _ | v
        · rfl
        · rw [hgk] at hsome
          simp at hsome

theorem import_then_extract_clears_key_witness :
    getKey ([] : List (String × Json)) "Hello" = none :=
  import_then_extract_clears_key
    [(XCSTRINGS_PATH, Json.obj [("strings", Json.obj [("Hello",
        Json.obj [])])]),
      (TRANSLATIONS_PATH, Json.obj [("Hello", Json.str "nihao")])]
    [("strings", Json.obj [("Hello", Json.obj [])])]
    [("Hello", Json.obj [])] "Hello" "nihao" (Json.obj [])
    rfl rfl rfl (by simp) rfl
    (setKey [(XCSTRINGS_PATH, Json.obj [("strings", Json.obj [("Hello",
        Json.obj [])])]),
      (TRANSLATIONS_PATH, Json.obj [("Hello", Json.str "nihao")])]
      XCSTRINGS_PATH (Json.obj (setKey [("strings", Json.obj [("Hello",
        Json.obj [])])] "strings" (Json.obj (setKey [("Hello", Json.obj [])]
        "Hello" (Json.obj (setKey [] "localizations" (Json.obj (setKey []
          "zh-Hans" (newRecord (Json.str "nihao")))))))))))
    (setKey (setKey [(XCSTRINGS_PATH, Json.obj [("strings", Json.obj
        [("Hello", Json.obj [])])]),
      (TRANSLATIONS_PATH, Json.obj [("Hello", Json.str "nihao")])]
      XCSTRINGS_PATH (Json.obj (setKey [("strings", Json.obj [("Hello",
        Json.obj [])])] "strings" (Json.obj (setKey [("Hello", Json.obj [])]
        "Hello" (Json.obj (setKey [] "localizations" (Json.obj (setKey []
          "zh-Hans" (newRecord (Json.str "nihao")))))))))))
      OUTPUT_PATH (Json.obj []))
    [Msg.updatedCount 1 XCSTRINGS_PATH]
    [Msg.foundCount 0, Msg.exported OUTPUT_PATH]
    rfl rfl ([] : List (String × Json)) rfl

end Nolon
